import Mathlib

/-!
Verification of `src/concat.py` (obsidian-concat): a utility that scans a
directory for Markdown files and concatenates them into one output file.

The embedding is a direct translation of the source:
* a path is its list of components (what `PurePath._parts_normcase` holds);
* `pathlib` path comparison, used by `sorted(directory.rglob(&#39;*.md&#39;))`,
  compares the component lists element-wise (Python list comparison), not
  the joined path string;
* the filesystem is a pair of functions giving, for each path, its resolved
  (canonical) form and the outcome of opening and reading it as UTF-8 text;
* Python text mode (`newline=None`) applies universal-newline translation on
  read; writing on a POSIX platform is the identity on the decoded text;
* the output stream is modelled by an explicit state (buffer, write-call
  counter, warnings) plus an oracle saying whether `open` fails and which
  write call, if any, raises.
-/

/-- A filesystem path as its sequence of components, e.g.
`["notes", "a.md"]` for `notes/a.md`. -/
abbrev Parts := List String

/-- `str()` of a path: components joined with the POSIX separator. -/
def joinParts (p : Parts) : String :=
  String.intercalate ("/") p

/-- Strict comparison of two characters by code point. -/
def charLtB (a b : Char) : Bool := decide (a.toNat < b.toNat)

/-- Strict lexicographic order on character lists by code point:
Python&#39;s `<` on strings. -/
def strLtB : List Char → List Char → Bool
  | [], [] => false
  | [], _ :: _ => true
  | _ :: _, [] => false
  | a :: as, b :: bs =>
    if charLtB a b then true
    else if a = b then strLtB as bs
    else false

/-- Python string `<` on `String`. -/
def pyStrLt (s t : String) : Bool := strLtB s.data t.data

theorem char_toNat_inj {a b : Char} (h : a.toNat = b.toNat) : a = b :=
  Char.eq_of_val_eq (UInt32.eq_of_val_eq (Fin.eq_of_val_eq h))

theorem strLtB_irrefl : ∀ a : List Char, strLtB a a = false
  | [] => rfl
  | a :: as => by simp [strLtB, charLtB, strLtB_irrefl as]

theorem strLtB_trichotomy : ∀ a b : List Char, strLtB a b = true ∨ a = b ∨ strLtB b a = true
  | [], [] => Or.inr (Or.inl rfl)
  | [], _ :: _ => Or.inl rfl
  | _ :: _, [] => Or.inr (Or.inr rfl)
  | a :: as, b :: bs => by
    rcases Nat.lt_trichotomy a.toNat b.toNat with h | h | h
    · exact Or.inl (by simp [strLtB, charLtB, h])
    · have hab : a = b := char_toNat_inj h
      subst hab
      rcases strLtB_trichotomy as bs with ih | ih | ih
      · exact Or.inl (by simp [strLtB, charLtB, ih])
      · exact Or.inr (Or.inl (by rw [ih]))
      · exact Or.inr (Or.inr (by simp [strLtB, charLtB, ih]))
    · exact Or.inr (Or.inr (by simp [strLtB, charLtB, h]))

theorem strLtB_trans :
    ∀ a b c : List Char, strLtB a b = true → strLtB b c = true → strLtB a c = true
  | [], [], _, h1, _ => by simp [strLtB] at h1
  | [], _ :: _, [], _, h2 => by simp [strLtB] at h2
  | [], _ :: _, _ :: _, _, _ => rfl
  | _ :: _, [], _, h1, _ => by simp [strLtB] at h1
  | _ :: _, _ :: _, [], _, h2 => by simp [strLtB] at h2
  | a :: as, b :: bs, c :: cs, h1, h2 => by
    by_cases hab : charLtB a b = true
    · have habn : a.toNat < b.toNat := by simpa [charLtB] using hab
      by_cases hbc : charLtB b c = true
      · have hbcn : b.toNat < c.toNat := by simpa [charLtB] using hbc
        simp [strLtB, charLtB, Nat.lt_trans habn hbcn]
      · by_cases hbc2 : b = c
        · subst hbc2; simp [strLtB, hab]
        · simp [strLtB, hbc, hbc2] at h2
    · by_cases hab2 : a = b
      · subst hab2
        have h1x : strLtB as bs = true := by simpa [strLtB, hab] using h1
        by_cases hac : charLtB a c = true
        · simp [strLtB, hac]
        · by_cases hac2 : a = c
          · subst hac2
            have h2x : strLtB bs cs = true := by simpa [strLtB, hac] using h2
            simp [strLtB, hac, strLtB_trans as bs cs h1x h2x]
          · simp [strLtB, hac, hac2] at h2
      · simp [strLtB, hab, hab2] at h1

theorem strLtB_asymm {a b : List Char} (h : strLtB a b = true) : strLtB b a = false := by
  by_contra hc
  have hba : strLtB b a = true := by simpa using hc
  have habs := strLtB_trans a b a h hba
  simp [strLtB_irrefl] at habs

theorem str_data_inj {s t : String} (h : s.data = t.data) : s = t := by
  cases s; cases t; simp_all

theorem pyStrLt_irrefl (s : String) : pyStrLt s s = false := strLtB_irrefl s.data

theorem pyStrLt_trichotomy (s t : String) :
    pyStrLt s t = true ∨ s = t ∨ pyStrLt t s = true := by
  rcases strLtB_trichotomy s.data t.data with h | h | h
  · exact Or.inl h
  · exact Or.inr (Or.inl (str_data_inj h))
  · exact Or.inr (Or.inr h)

theorem pyStrLt_trans {s t u : String} (h1 : pyStrLt s t = true)
    (h2 : pyStrLt t u = true) : pyStrLt s u = true :=
  strLtB_trans s.data t.data u.data h1 h2

theorem pyStrLt_asymm {s t : String} (h : pyStrLt s t = true) : pyStrLt t s = false :=
  strLtB_asymm h

/-- Python list/tuple `<=` on path-component lists, exactly the comparison
`PurePath.__lt__` performs via `_parts_normcase` (case-sensitive on POSIX):
compare element-wise by string order; a strict prefix is smaller. -/
def partsLeB : List String → List String → Bool
  | [], _ => true
  | _ :: _, [] => false
  | a :: as, b :: bs =>
    if pyStrLt a b then true
    else if a = b then partsLeB as bs
    else false

/-- Propositional form of `partsLeB`. -/
def partsLe (a b : Parts) : Prop := partsLeB a b = true

instance : DecidableRel partsLe := fun a b => Bool.decEq (partsLeB a b) true

theorem partsLeB_total : ∀ a b : Parts, partsLeB a b = true ∨ partsLeB b a = true
  | [], _ => Or.inl rfl
  | _ :: _, [] => Or.inr rfl
  | a :: as, b :: bs => by
    rcases pyStrLt_trichotomy a b with h | h | h
    · exact Or.inl (by simp [partsLeB, h])
    · subst h
      rcases partsLeB_total as bs with ih | ih
      · exact Or.inl (by simp [partsLeB, pyStrLt_irrefl, ih])
      · exact Or.inr (by simp [partsLeB, pyStrLt_irrefl, ih])
    · exact Or.inr (by simp [partsLeB, h])

theorem partsLeB_trans :
    ∀ a b c : Parts, partsLeB a b = true → partsLeB b c = true → partsLeB a c = true
  | [], _, _, _, _ => rfl
  | _ :: _, [], _, h, _ => by simp [partsLeB] at h
  | _ :: _, _ :: _, [], _, h => by simp [partsLeB] at h
  | a :: as, b :: bs, c :: cs, h1, h2 => by
    by_cases hab : pyStrLt a b = true
    · by_cases hbc : pyStrLt b c = true
      · simp [partsLeB, pyStrLt_trans hab hbc]
      · by_cases hbc2 : b = c
        · subst hbc2; simp [partsLeB, hab]
        · simp [partsLeB, hbc, hbc2] at h2
    · by_cases hab2 : a = b
      · subst hab2
        have h1x : partsLeB as bs = true := by
          simpa [partsLeB, pyStrLt_irrefl] using h1
        by_cases hac : pyStrLt a c = true
        · simp [partsLeB, hac]
        · by_cases hac2 : a = c
          · subst hac2
            have h2x : partsLeB bs cs = true := by
              simpa [partsLeB, pyStrLt_irrefl] using h2
            simp [partsLeB, pyStrLt_irrefl, partsLeB_trans as bs cs h1x h2x]
          · simp [partsLeB, hac, hac2] at h2
      · simp [partsLeB, hab, hab2] at h1

theorem partsLeB_antisymm :
    ∀ a b : Parts, partsLeB a b = true → partsLeB b a = true → a = b
  | [], [], _, _ => rfl
  | [], _ :: _, _, h => by simp [partsLeB] at h
  | _ :: _, [], h, _ => by simp [partsLeB] at h
  | a :: as, b :: bs, h1, h2 => by
    by_cases hab : pyStrLt a b = true
    · have hba := pyStrLt_asymm hab
      have hne : b ≠ a := fun he => by rw [he] at hab; simp [pyStrLt_irrefl] at hab
      simp [partsLeB, hba, hne] at h2
    · by_cases hab2 : a = b
      · subst hab2
        have h1x : partsLeB as bs = true := by simpa [partsLeB, pyStrLt_irrefl] using h1
        have h2x : partsLeB bs as = true := by simpa [partsLeB, pyStrLt_irrefl] using h2
        rw [partsLeB_antisymm as bs h1x h2x]
      · simp [partsLeB, hab, hab2] at h1

instance : IsTotal Parts partsLe := ⟨fun a b => partsLeB_total a b⟩

instance : IsTrans Parts partsLe := ⟨fun a b c => partsLeB_trans a b c⟩

instance : IsAntisymm Parts partsLe := ⟨fun a b => partsLeB_antisymm a b⟩

/-- Outcome of `open(md_file, &#39;r&#39;, encoding=&#39;utf-8&#39;)` followed by
`infile.read()` for one path.  `ok raw` carries the file text as stored on
disk (decoded code points, before universal-newline translation); the three
error constructors are the exceptions caught at lines 71, 74 and 77 of
`concat.py`. -/
inductive ReadOutcome
  | ok (raw : String)
  | permissionDenied
  | decodeFail
  | readFail (msg : String)
deriving DecidableEq

/-- The filesystem as the program observes it: `resolve` is
`Path.resolve()` (canonical form, used for equality checks) and `disk` is
the result of opening and reading the path as UTF-8 text. -/
structure FileSys where
  resolve : Parts → Parts
  disk : Parts → ReadOutcome

/-- A warning printed to standard error by the per-file `except` handlers
(lines 71-79 of `concat.py`).  `writeFailure` records that an exception
raised by `outfile.write` inside the per-file `try` block was caught there;
the code then reports it with one of the same warning messages. -/
inductive Warning
  | readPermission (path : Parts)
  | readDecode (path : Parts)
  | readOther (path : Parts) (msg : String)
  | writeFailure (path : Parts)
deriving DecidableEq

/-- Failure oracle for the output stream: whether `open(output_file, &#39;w&#39;)`
raises, and which `outfile.write` call (counted from 0 over the whole run),
if any, raises. -/
structure WriteOracle where
  openFails : Bool
  failAt : Option Nat
deriving DecidableEq

/-- State of the open output stream: text written so far, number of
`outfile.write` calls made so far, and warnings printed so far. -/
structure OutSt where
  buf : String
  ops : Nat
  warnings : List Warning
deriving DecidableEq

/-- One `outfile.write(s)` call: appends on success; on failure (the
oracle's designated call) the stream is unchanged and the exception is
signalled by the `false` flag.  Either way the call is counted. -/
def doWrite (orc : WriteOracle) (st : OutSt) (s : String) : OutSt × Bool :=
  if orc.failAt = some st.ops then
    ({ st with ops := st.ops + 1 }, false)
  else
    ({ st with buf := st.buf ++ s, ops := st.ops + 1 }, true)

/-- Universal-newline translation step (Python text mode, `newline=None`):
given whether the previous character was a carriage return, emit the
translation of one character and the new carry. -/
def nlStep (prevCR : Bool) (c : Char) : Bool × List Char :=
  if c = '\r' then (true, ['\n'])
  else if c = '\n' then (false, if prevCR then [] else ['\n'])
  else (false, [c])

/-- Run `nlStep` over a character list. -/
def nlRun : Bool → List Char → List Char
  | _, [] => []
  | prev, c :: rest =>
    (nlStep prev c).2 ++ nlRun (nlStep prev c).1 rest

/-- Universal-newline translation: what Python&#39;s text-mode read returns
for on-disk text (CRLF and lone CR both become LF).  The write side
(`newline=None` on a POSIX platform) is the identity. -/
def translateNewlines (l : List Char) : List Char := nlRun false l

/-- `infile.read()` as the program sees it: the decoded text after
universal-newline translation, or the warning the per-file handler will
print for this path (lines 67-79 of `concat.py`). -/
def pyReadText (fs : FileSys) (p : Parts) : Except Warning String :=
  match fs.disk p with
  | .ok raw => .ok ⟨translateNewlines raw.data⟩
  | .permissionDenied => .error (.readPermission p)
  | .decodeFail => .error (.readDecode p)
  | .readFail m => .error (.readOther p m)

/-- `path.relative_to(base)`: strip `base`&#39;s components when they form a
prefix of `path`&#39;s, else `none` (the `ValueError` branch). -/
def dropBase : Parts → Parts → Option Parts
  | [], p => some p
  | _ :: _, [] => none
  | b :: bs, q :: qs => if b = q then dropBase bs qs else none

/-- The display label of a file (lines 51-54 of `concat.py`): the path
relative to the base directory when expressible, otherwise the original
path. -/
def displayLabel (base p : Parts) : String :=
  match dropBase base p with
  | some [] => (".")
  | some rest => joinParts rest
  | none => joinParts p

/-- The 80-character rule line of a separator. -/
def eqRule : String := ⟨List.replicate 80 '='⟩

/-- The separator text built at lines 57-59 of `concat.py`.  Note that the
template itself begins with a newline. -/
def separatorFor (label : String) : String :=
  ("\n") ++ eqRule ++ ("\n") ++ ("File: ") ++ label ++ ("\n") ++ eqRule ++ ("\n\n")

/-- Append one warning (a `print(..., file=sys.stderr)` in an `except`
handler). -/
def addWarning (st : OutSt) (w : Warning) : OutSt :=
  { st with warnings := st.warnings ++ [w] }

/-- One iteration of the loop of `concatenate_files` (lines 44-79), for the
file at index `i` of the list handed in.  The output-file check comes first
(`continue` writes nothing); the gap and separator writes precede the read
attempt; every exception inside the per-file `try` — the three read errors
and any exception raised by a write — is converted into a warning and the
loop continues. -/
def processEntry (orc : WriteOracle) (fs : FileSys) (outRes base : Parts)
    (i : Nat) (p : Parts) (st : OutSt) : OutSt :=
  if fs.resolve p = outRes then st
  else
    let sep := separatorFor (displayLabel base p)
    let w1 := if i > 0 then doWrite orc st ("\n\n") else (st, true)
    if w1.2 = false then addWarning w1.1 (.writeFailure p)
    else
      let w2 := doWrite orc w1.1 sep
      if w2.2 = false then addWarning w2.1 (.writeFailure p)
      else
        match pyReadText fs p with
        | .error w => addWarning w2.1 w
        | .ok content =>
          let w3 := doWrite orc w2.1 content
          if w3.2 = false then addWarning w3.1 (.writeFailure p) else w3.1

/-- The whole `for i, md_file in enumerate(md_files)` loop, starting at
index `i`. -/
def processFrom (orc : WriteOracle) (fs : FileSys) (outRes base : Parts) :
    Nat → List Parts → OutSt → OutSt
  | _, [], st => st
  | i, p :: ps, st =>
    processFrom orc fs outRes base (i + 1) ps (processEntry orc fs outRes base i p st)

/-- Result of `concatenate_files`:
`fatalOpen` is the outer `except` path (error to standard error and
`sys.exit(1)`, reached when `open(output_file, &#39;w&#39;)` raises);
`success buf reported warnings` is the normal path: the output file holds
`buf`, the success message reports `reported` file(s), and `warnings` were
printed along the way (exit status 0). -/
inductive ConcatResult
  | fatalOpen
  | success (buf : String) (reported : Nat) (warnings : List Warning)
deriving DecidableEq

/-- `concatenate_files(md_files, output_file, base_dir)` (lines 33-88 of
`concat.py`).  Opening the output file truncates it; the success message
reports `len(md_files)`. -/
def concatenate_files (orc : WriteOracle) (fs : FileSys) (md_files : List Parts)
    (outRes base : Parts) : ConcatResult :=
  if orc.openFails then .fatalOpen
  else
    let st := processFrom orc fs outRes base 0 md_files { buf := (""), ops := 0, warnings := [] }
    .success st.buf md_files.length st.warnings

/-- `sorted(directory.rglob(&#39;*.md&#39;))`: Python&#39;s `sorted` on `Path`
objects, i.e. ordering by component lists. -/
def pythonSort (l : List Parts) : List Parts := List.insertionSort partsLe l

/-- `scan_markdown_files` (lines 15-30 of `concat.py`): `enumerated` is the
list of `.md` paths in the order the traversal yields them; a
`PermissionError` during traversal is fatal (`sys.exit(1)`), modelled as
`Except.error`. -/
def scan_markdown_files (scanErr : Bool) (enumerated : List Parts) :
    Except Unit (List Parts) :=
  if scanErr then .error () else .ok (pythonSort enumerated)

/-- Result of `main` (lines 91-148 of `concat.py`).  The three `fatal*`
constructors are the `sys.exit(1)` paths, `noFiles` is the
"No .md files found" warning followed by `sys.exit(0)` — `concatenate_files`
is never called, so the output file is neither created nor truncated —
and `ran found r` means "Found `found` markdown file(s)" was printed and
`concatenate_files` returned `r`. -/
inductive MainResult
  | fatalMissingInput
  | fatalNotDir
  | fatalScan
  | noFiles
  | ran (found : Nat) (result : ConcatResult)
deriving DecidableEq

/-- `main()` (lines 91-148 of `concat.py`): validate the input directory,
scan, filter out the resolved output path, warn-and-exit-0 on an empty
list, else concatenate. -/
def mainRun (inputExists inputIsDir scanErr : Bool) (enumerated : List Parts)
    (fs : FileSys) (outRes inputDir : Parts) (orc : WriteOracle) : MainResult :=
  if inputExists = false then .fatalMissingInput
  else if inputIsDir = false then .fatalNotDir
  else
    match scan_markdown_files scanErr enumerated with
    | .error _ => .fatalScan
    | .ok sortedFiles =>
      match sortedFiles.filter (fun p => !(fs.resolve p == outRes)) with
      | [] => .noFiles
      | md_files => .ran md_files.length (concatenate_files orc fs md_files outRes inputDir)

/-- The gap written before the separator of the entry at list index `i`
(lines 61-62 of `concat.py`): present exactly when `i > 0`. -/
def gapStr (i : Nat) : String := if i > 0 then ("\n\n") else ("")

/-- Number of `outfile.write` calls the gap contributes. -/
def gapOps (i : Nat) : Nat := if i > 0 then 1 else 0

/-- Closed form of the text one loop iteration appends when no write call
fails: nothing for the output file itself; gap, separator and content for a
readable file; gap and separator — but no content — for a file whose read
raises. -/
def entryEmit (fs : FileSys) (outRes base : Parts) (i : Nat) (p : Parts) : String :=
  if fs.resolve p = outRes then ("")
  else
    match pyReadText fs p with
    | .ok content => gapStr i ++ separatorFor (displayLabel base p) ++ content
    | .error _ => gapStr i ++ separatorFor (displayLabel base p)

/-- Closed form of the warnings one loop iteration prints when no write
call fails. -/
def entryWarnings (fs : FileSys) (outRes : Parts) (p : Parts) : List Warning :=
  if fs.resolve p = outRes then []
  else
    match pyReadText fs p with
    | .ok _ => []
    | .error w => [w]

/-- Closed form of the number of write calls one loop iteration makes when
none fails. -/
def entryOps (fs : FileSys) (outRes : Parts) (i : Nat) (p : Parts) : Nat :=
  if fs.resolve p = outRes then 0
  else
    match pyReadText fs p with
    | .ok _ => gapOps i + 2
    | .error _ => gapOps i + 1

/-- Closed form of the text the loop appends from index `i` on, when no
write call fails. -/
def emitFrom (fs : FileSys) (outRes base : Parts) : Nat → List Parts → String
  | _, [] => ("")
  | i, p :: ps => entryEmit fs outRes base i p ++ emitFrom fs outRes base (i + 1) ps

/-- Closed form of the warnings the loop prints, when no write call
fails. -/
def warningsFrom (fs : FileSys) (outRes : Parts) : List Parts → List Warning
  | [] => []
  | p :: ps => entryWarnings fs outRes p ++ warningsFrom fs outRes ps

/-- Closed form of the number of write calls the loop makes from index `i`
on, when none fails. -/
def opsFrom (fs : FileSys) (outRes : Parts) : Nat → List Parts → Nat
  | _, [] => 0
  | i, p :: ps => entryOps fs outRes i p + opsFrom fs outRes (i + 1) ps

theorem processEntry_noFail (o : Bool) (fs : FileSys) (outRes base : Parts)
    (i : Nat) (p : Parts) (st : OutSt) :
    processEntry ⟨o, none⟩ fs outRes base i p st =
      { buf := st.buf ++ entryEmit fs outRes base i p,
        ops := st.ops + entryOps fs outRes i p,
        warnings := st.warnings ++ entryWarnings fs outRes p } := by
  by_cases h : fs.resolve p = outRes
  · simp [processEntry, entryEmit, entryWarnings, entryOps, h]
  · cases hread : pyReadText fs p with
    | ok content =>
      by_cases hi : i > 0 <;>
        simp [processEntry, entryEmit, entryWarnings, entryOps, gapStr, gapOps, h, hi, hread,
          doWrite, addWarning, String.append_assoc, String.empty_append]
    | error w =>
      by_cases hi : i > 0 <;>
        simp [processEntry, entryEmit, entryWarnings, entryOps, gapStr, gapOps, h, hi, hread,
          doWrite, addWarning, String.append_assoc, String.empty_append]

theorem processFrom_noFail (o : Bool) (fs : FileSys) (outRes base : Parts) :
    ∀ (l : List Parts) (i : Nat) (st : OutSt),
      processFrom ⟨o, none⟩ fs outRes base i l st =
        { buf := st.buf ++ emitFrom fs outRes base i l,
          ops := st.ops + opsFrom fs outRes i l,
          warnings := st.warnings ++ warningsFrom fs outRes l }
  | [], i, st => by
    simp [processFrom, emitFrom, opsFrom, warningsFrom]
  | p :: ps, i, st => by
    rw [processFrom, processEntry_noFail, processFrom_noFail o fs outRes base ps (i + 1)]
    simp [emitFrom, opsFrom, warningsFrom, String.append_assoc, List.append_assoc]
    omega

theorem nlRun_of_no_cr : ∀ l : List Char, '\r' ∉ l → nlRun false l = l
  | [], _ => rfl
  | c :: rest, h => by
    have hc : ¬ c = '\r' := fun hc => h (hc ▸ List.mem_cons_self c rest)
    have hrest : '\r' ∉ rest := fun hr => h (List.mem_cons_of_mem c hr)
    by_cases hn : c = '\n'
    · subst hn
      simp [nlRun, nlStep, nlRun_of_no_cr rest hrest]
    · simp [nlRun, nlStep, hc, hn, nlRun_of_no_cr rest hrest]

/-- Concrete filesystem used by the closed witnesses and counterexamples:
`notes/a.md` reads fine, `notes/b.md` raises `PermissionError`,
`notes/c.md` holds text with a CRLF line ending, every path resolves to
itself, and the output file is `notes/combined.md`. -/
def exOutRes : Parts := ["notes", "combined.md"]

/-- Base directory of the concrete example. -/
def exBase : Parts := ["notes"]

/-- Readable example file. -/
def exA : Parts := ["notes", "a.md"]

/-- Unreadable (permission denied) example file. -/
def exB : Parts := ["notes", "b.md"]

/-- Example file whose on-disk text contains a CRLF line ending. -/
def exC : Parts := ["notes", "c.md"]

/-- The example filesystem. -/
def exFs : FileSys where
  resolve := fun p => p
  disk := fun p =>
    if p = exA then .ok ("Hello")
    else if p = exB then .permissionDenied
    else if p = exC then .ok ("a\r\nb")
    else .ok ("old output")

/-- C1, counterexample: with `notes/a.md` readable and `notes/b.md` raising
a permission error, the output still contains the gap and the separator
record for `b.md` (the code writes them before attempting the read, lines
61-64 vs 67 of `concat.py`), refuting "skipped files produce no output
block, not even a separator". -/
theorem c1_counterexample :
    concatenate_files ⟨false, none⟩ exFs [exA, exB] exOutRes exBase =
      .success (separatorFor ("a.md") ++ ("Hello") ++ (("\n\n") ++ separatorFor ("b.md")))
        2 [.readPermission exB] := by
  rfl

/-- C1, amended: a file whose read raises a recoverable error still gets
its gap (when its index is positive) and its full separator record written;
only the content is omitted, and the corresponding warning is recorded
while the run continues. -/
theorem c1_read_error_still_writes_separator (o : Bool) (fs : FileSys)
    (outRes base : Parts) (i : Nat) (p : Parts) (st : OutSt) (w : Warning)
    (hskip : ¬ fs.resolve p = outRes) (hread : pyReadText fs p = .error w) :
    processEntry ⟨o, none⟩ fs outRes base i p st =
      { buf := st.buf ++ gapStr i ++ separatorFor (displayLabel base p),
        ops := st.ops + gapOps i + 1,
        warnings := st.warnings ++ [w] } := by
  rw [processEntry_noFail]
  simp [entryEmit, entryWarnings, entryOps, hskip, hread, String.append_assoc, Nat.add_assoc]

/-- C1, witness for the amended theorem at the concrete filesystem. -/
theorem c1_read_error_witness :
    (¬ exFs.resolve exB = exOutRes) ∧ pyReadText exFs exB = .error (.readPermission exB) ∧
    processEntry ⟨false, none⟩ exFs exOutRes exBase 1 exB ⟨(""), 0, []⟩ =
      { buf := ("") ++ gapStr 1 ++ separatorFor (displayLabel exBase exB),
        ops := 0 + gapOps 1 + 1,
        warnings := [] ++ [.readPermission exB] } :=
  ⟨by decide, rfl,
    c1_read_error_still_writes_separator false exFs exOutRes exBase 1 exB ⟨(""), 0, []⟩
      (.readPermission exB) (by decide) rfl⟩

/-- C2: the code contradicts the claim (and its own error messages): an
exception raised by `outfile.write` during the loop is caught by the
per-file handler (lines 71-79), which warns — with a message about
*reading* the file — and continues, so the run ends in the success path
with exit status 0; only a failure of `open(output_file, &#39;w&#39;)` reaches
the outer fatal handler.  First conjunct: the very first write call raises,
yet the result is `success`.  Second conjunct: an open failure is fatal. -/
theorem c2_write_failure_recoverable :
    concatenate_files ⟨false, some 0⟩ exFs [exA] exOutRes exBase =
      .success ("") 1 [.writeFailure exA] ∧
    concatenate_files ⟨true, none⟩ exFs [exA] exOutRes exBase = .fatalOpen := by
  exact ⟨rfl, rfl⟩

/-- C3, counterexample: when the first list entry is the output file itself
(skipped), the first block actually written is still preceded by the
blank-line gap, because the gap test uses the entry&#39;s index in the handed
list (`if i > 0`, line 61), not "first block actually written"; moreover
the separator template itself begins with a newline (line 57), so the
output document does not begin directly with an `=` rule. -/
theorem c3_counterexample :
    concatenate_files ⟨false, none⟩ exFs [exOutRes, exA] exOutRes exBase =
      .success (("\n\n") ++ separatorFor ("a.md") ++ ("Hello")) 2 [] ∧
    (separatorFor ("a.md")).data.head? = some '\n' := by
  exact ⟨rfl, rfl⟩

/-- C3, amended: on a run with no write failures the output is exactly the
concatenation, over list indices, of: a `"\n\n"` gap for every entry with
index `> 0` (written or skipped alike), then the separator record — which
itself starts with a newline before the first 80-`=` rule — then the
file&#39;s content when the read succeeds (see `entryEmit`/`emitFrom`). -/
theorem c3_output_layout (fs : FileSys) (l : List Parts) (outRes base : Parts) :
    concatenate_files ⟨false, none⟩ fs l outRes base =
      .success (emitFrom fs outRes base 0 l) l.length (warningsFrom fs outRes l) := by
  simp [concatenate_files, processFrom_noFail, String.empty_append]

/-- C4, counterexample: `notes/c.md` holds `"a\r\nb"` on disk, but the
output block for it contains `"a\nb"`: text-mode reading applies
universal-newline translation, so the content is not byte-for-byte what is
stored on disk. -/
theorem c4_counterexample :
    concatenate_files ⟨false, none⟩ exFs [exC] exOutRes exBase =
      .success (separatorFor ("c.md") ++ ("a\nb")) 1 [] ∧
    ("a\nb" : String) ≠ ("a\r\nb") := by
  exact ⟨rfl, by decide⟩

/-- C4, amended: the content appended after the separator is the on-disk
text after universal-newline translation (CRLF and lone CR become LF), with
no other transformation and no trailing-newline normalization; whenever the
on-disk text contains no carriage return it is appended exactly as
stored. -/
theorem c4_content_newline_translation (o : Bool) (fs : FileSys)
    (outRes base : Parts) (i : Nat) (p : Parts) (st : OutSt) (raw : String)
    (hskip : ¬ fs.resolve p = outRes) (hdisk : fs.disk p = .ok raw) :
    processEntry ⟨o, none⟩ fs outRes base i p st =
      { buf := st.buf ++ gapStr i ++ separatorFor (displayLabel base p)
                 ++ String.mk (translateNewlines raw.data),
        ops := st.ops + gapOps i + 2,
        warnings := st.warnings } ∧
    ('\r' ∉ raw.data → String.mk (translateNewlines raw.data) = raw) := by
  constructor
  · have hread : pyReadText fs p = .ok ⟨translateNewlines raw.data⟩ := by
      simp [pyReadText, hdisk]
    rw [processEntry_noFail]
    simp [entryEmit, entryWarnings, entryOps, hskip, hread, String.append_assoc, Nat.add_assoc]
  · intro h
    rw [translateNewlines, nlRun_of_no_cr raw.data h]

/-- C4, witness for the amended theorem: `notes/a.md` holds `"Hello"`,
which contains no carriage return and is appended verbatim. -/
theorem c4_content_witness :
    (¬ exFs.resolve exA = exOutRes) ∧ exFs.disk exA = .ok ("Hello") ∧
    (processEntry ⟨false, none⟩ exFs exOutRes exBase 0 exA ⟨(""), 0, []⟩ =
      { buf := ("") ++ gapStr 0 ++ separatorFor (displayLabel exBase exA)
                 ++ String.mk (translateNewlines ("Hello").data),
        ops := 0 + gapOps 0 + 2,
        warnings := ([] : List Warning) } ∧
     ('\r' ∉ ("Hello").data → String.mk (translateNewlines ("Hello").data) = ("Hello"))) :=
  ⟨by decide, rfl,
    c4_content_newline_translation false exFs exOutRes exBase 0 exA ⟨(""), 0, []⟩ ("Hello")
      (by decide) rfl⟩

/-- C6: a list entry whose resolved path equals the output file&#39;s
resolved path is skipped outright (lines 46-47 of `concat.py`): the loop
iteration leaves the output stream and the warnings untouched, for any
write oracle, so the output file&#39;s own content is never included in
itself.  `main` additionally pre-filters such entries (line 139). -/
theorem c6_output_self_skip (orc : WriteOracle) (fs : FileSys) (outRes base : Parts)
    (i : Nat) (p : Parts) (st : OutSt) (h : fs.resolve p = outRes) :
    processEntry orc fs outRes base i p st = st := by
  simp [processEntry, h]

/-- C6, witness at the concrete filesystem. -/
theorem c6_output_self_skip_witness :
    exFs.resolve exOutRes = exOutRes ∧
    processEntry ⟨false, none⟩ exFs exOutRes exBase 0 exOutRes ⟨(""), 0, []⟩ = ⟨(""), 0, []⟩ :=
  ⟨rfl, c6_output_self_skip ⟨false, none⟩ exFs exOutRes exBase 0 exOutRes ⟨(""), 0, []⟩ rfl⟩

/-- C9: whenever `concatenate_files` reaches its success message, the
count it reports is the length of the list handed in (line 81:
`len(md_files)`), which counts entries later skipped by per-file read
errors or by the output-file check — not the number of blocks written. -/
theorem c9_reported_count (orc : WriteOracle) (fs : FileSys) (l : List Parts)
    (outRes base : Parts) (b : String) (n : Nat) (w : List Warning)
    (h : concatenate_files orc fs l outRes base = .success b n w) :
    n = l.length := by
  by_cases ho : orc.openFails
  · simp [concatenate_files, ho] at h
  · simp [concatenate_files, ho] at h
    exact h.2.1.symm

set_option maxRecDepth 8192 in
/-- C9, witness: a two-file run in which `notes/b.md` is skipped with a
warning still reports 2 files. -/
theorem c9_reported_count_witness :
    concatenate_files ⟨false, none⟩ exFs [exA, exB] exOutRes exBase =
      .success (emitFrom exFs exOutRes exBase 0 [exA, exB]) 2 [.readPermission exB] ∧
    (2 : Nat) = ([exA, exB] : List Parts).length :=
  ⟨rfl,
    c9_reported_count ⟨false, none⟩ exFs [exA, exB] exOutRes exBase
      (emitFrom exFs exOutRes exBase 0 [exA, exB]) 2 [.readPermission exB] rfl⟩

/-- C10: called on an empty list, `concatenate_files` still opens — and
thereby creates or truncates — the output file, writes nothing, and
reports success with a count of 0; the guarantee that nothing is written
when no files are found lives only in `main`&#39;s pre-check (lines
141-143), modelled by `MainResult.noFiles`. -/
theorem c10_empty_list_truncates (orc : WriteOracle) (fs : FileSys) (outRes base : Parts)
    (h : orc.openFails = false) :
    concatenate_files orc fs [] outRes base = .success ("") 0 [] := by
  simp [concatenate_files, h, processFrom]

/-- C10, witness. -/
theorem c10_empty_list_truncates_witness :
    (WriteOracle.mk false none).openFails = false ∧
    concatenate_files ⟨false, none⟩ exFs [] exOutRes exBase = .success ("") 0 [] :=
  ⟨rfl, c10_empty_list_truncates ⟨false, none⟩ exFs exOutRes exBase rfl⟩

/-- C5, counterexample: with files `a-b.md` and `a/c.md` under the scan
root, Python&#39;s `sorted` on `Path` objects puts `a/c.md` first (component
lists compare `"a" < "a-b.md"`), although the full path string `"a-b.md"`
is strictly below `"a/c.md"` (`&#39;-&#39;` sorts before `&#39;/&#39;`); so the
scanner&#39;s order is not ascending order of the full path string. -/
theorem c5_counterexample :
    scan_markdown_files false [["a-b.md"], ["a", "c.md"]] =
      .ok [["a", "c.md"], ["a-b.md"]] ∧
    pyStrLt (joinParts (["a-b.md"])) (joinParts (["a", "c.md"])) = true := by
  exact ⟨rfl, rfl⟩

/-- C5, amended: the scanner returns the enumerated files sorted ascending
by their component lists under Python&#39;s element-wise path comparison
(`partsLe`), a permutation of what the traversal found; the result is
independent of the order in which the filesystem enumerates the files, so
reordering files on disk without renaming never changes the output order
(which is this list&#39;s order). -/
theorem c5_sorted_by_components (E E2 : List Parts) (h : E.Perm E2) :
    scan_markdown_files false E = scan_markdown_files false E2 ∧
    (pythonSort E).Sorted partsLe ∧ (pythonSort E).Perm E := by
  have hsort : pythonSort E = pythonSort E2 :=
    List.eq_of_perm_of_sorted
      (((List.perm_insertionSort partsLe E).trans h).trans
        (List.perm_insertionSort partsLe E2).symm)
      (List.sorted_insertionSort partsLe E) (List.sorted_insertionSort partsLe E2)
  exact ⟨by simp [scan_markdown_files, hsort],
    List.sorted_insertionSort partsLe E, List.perm_insertionSort partsLe E⟩

/-- C5, witness at a concrete enumeration and a reordering of it. -/
theorem c5_sorted_witness :
    ([exB, exA] : List Parts).Perm [exA, exB] ∧
    (scan_markdown_files false [exB, exA] = scan_markdown_files false [exA, exB] ∧
     (pythonSort [exB, exA]).Sorted partsLe ∧ (pythonSort [exB, exA]).Perm [exB, exA]) :=
  ⟨by decide, c5_sorted_by_components [exB, exA] [exA, exB] (by decide)⟩

/-- C7: when every scanned entry resolves to the output path (in
particular when nothing at all was found), `main` prints the "no .md
files" warning and exits with status 0 before `concatenate_files` is ever
called, so the output file is neither created nor truncated (lines 141-143
of `concat.py`). -/
theorem c7_no_files_exit_zero (E : List Parts) (fs : FileSys)
    (outRes inputDir : Parts) (orc : WriteOracle)
    (hE : ∀ p ∈ E, fs.resolve p = outRes) :
    mainRun true true false E fs outRes inputDir orc = .noFiles := by
  have hfilter : (pythonSort E).filter (fun p => !(fs.resolve p == outRes)) = [] := by
    refine List.filter_eq_nil_iff.mpr (fun p hp => ?_)
    have hpE : p ∈ E := (List.perm_insertionSort partsLe E).mem_iff.mp hp
    simp [hE p hpE]
  simp [mainRun, scan_markdown_files, hfilter]

/-- C7, witness: the scan found only the output file itself. -/
theorem c7_no_files_witness :
    (∀ p ∈ ([exOutRes] : List Parts), exFs.resolve p = exOutRes) ∧
    mainRun true true false [exOutRes] exFs exOutRes exBase ⟨false, none⟩ = .noFiles :=
  ⟨by decide,
    c7_no_files_exit_zero [exOutRes] exFs exOutRes exBase ⟨false, none⟩ (by decide)⟩

theorem pyReadText_congr (fs1 fs2 : FileSys) (p : Parts)
    (h : fs2.disk p = fs1.disk p) : pyReadText fs2 p = pyReadText fs1 p := by
  rw [pyReadText, pyReadText, h]

theorem processEntry_congr (orc : WriteOracle) (fs1 fs2 : FileSys)
    (outRes base : Parts) (i : Nat) (p : Parts) (st : OutSt)
    (h1 : fs2.resolve p = fs1.resolve p) (h2 : fs2.disk p = fs1.disk p) :
    processEntry orc fs2 outRes base i p st = processEntry orc fs1 outRes base i p st := by
  rw [processEntry, processEntry, h1, pyReadText_congr fs1 fs2 p h2]

theorem processFrom_congr (orc : WriteOracle) (fs1 fs2 : FileSys) (outRes base : Parts) :
    ∀ (l : List Parts) (i : Nat) (st : OutSt),
      (∀ p ∈ l, fs2.resolve p = fs1.resolve p ∧ fs2.disk p = fs1.disk p) →
      processFrom orc fs2 outRes base i l st = processFrom orc fs1 outRes base i l st
  | [], _, _, _ => rfl
  | p :: ps, i, st, h => by
    rw [processFrom, processFrom,
      processEntry_congr orc fs1 fs2 outRes base i p st
        (h p (List.mem_cons_self p ps)).1 (h p (List.mem_cons_self p ps)).2,
      processFrom_congr orc fs1 fs2 outRes base ps (i + 1) _
        (fun q hq => h q (List.mem_cons_of_mem p hq))]

theorem concatenate_files_congr (orc : WriteOracle) (fs1 fs2 : FileSys)
    (l : List Parts) (outRes base : Parts)
    (h : ∀ p ∈ l, fs2.resolve p = fs1.resolve p ∧ fs2.disk p = fs1.disk p) :
    concatenate_files orc fs2 l outRes base = concatenate_files orc fs1 l outRes base := by
  by_cases ho : orc.openFails <;>
    simp [concatenate_files, ho, processFrom_congr orc fs1 fs2 outRes base l 0 _ h]

/-- C8: re-running with the same inputs is idempotent.  `fs1` is the
filesystem of the first run and `fs2` that of the second: resolution is
unchanged, file contents are unchanged except possibly at paths resolving
to the output file, and the second scan may additionally enumerate any
number of entries `X` that resolve to the output file (e.g. the output of
the first run, now inside the scanned tree).  Both runs produce the same
result, hence byte-identical output files. -/
theorem c8_rerun_identical (fs1 fs2 : FileSys) (orc : WriteOracle)
    (outRes inputDir : Parts) (E X : List Parts)
    (hres : ∀ p, fs2.resolve p = fs1.resolve p)
    (hdisk : ∀ p, fs1.resolve p ≠ outRes → fs2.disk p = fs1.disk p)
    (hX : ∀ p ∈ X, fs1.resolve p = outRes) :
    mainRun true true false (E ++ X) fs2 outRes inputDir orc =
      mainRun true true false E fs1 outRes inputDir orc := by
  have hq : (fun p => !(fs2.resolve p == outRes)) = (fun p => !(fs1.resolve p == outRes)) :=
    funext fun p => by rw [hres p]
  have hXnil : X.filter (fun p => !(fs1.resolve p == outRes)) = [] :=
    List.filter_eq_nil_iff.mpr (fun p hp => by simp [hX p hp])
  have hfeq : (pythonSort (E ++ X)).filter (fun p => !(fs1.resolve p == outRes))
      = (pythonSort E).filter (fun p => !(fs1.resolve p == outRes)) := by
    refine List.eq_of_perm_of_sorted ?_
      ((List.sorted_insertionSort partsLe (E ++ X)).filter _)
      ((List.sorted_insertionSort partsLe E).filter _)
    have p1 := (List.perm_insertionSort partsLe (E ++ X)).filter
      (fun p => !(fs1.resolve p == outRes))
    rw [List.filter_append, hXnil, List.append_nil] at p1
    exact p1.trans ((List.perm_insertionSort partsLe E).filter _).symm
  have hmem : ∀ p ∈ (pythonSort E).filter (fun p => !(fs1.resolve p == outRes)),
      fs2.resolve p = fs1.resolve p ∧ fs2.disk p = fs1.disk p := by
    intro p hp
    refine ⟨hres p, hdisk p ?_⟩
    simpa using List.of_mem_filter hp
  simp only [mainRun, scan_markdown_files, if_neg, Bool.false_eq_true, not_false_iff,
    reduceIte, hq, hfeq]
  cases hc : (pythonSort E).filter (fun p => !(fs1.resolve p == outRes)) with
  | nil => rfl
  | cons a as =>
    simp only []
    rw [concatenate_files_congr orc fs1 fs2 (a :: as) outRes inputDir (hc ▸ hmem)]

/-- C8, witness: second run scans the first run&#39;s output file in
addition to `notes/a.md`; results coincide. -/
theorem c8_rerun_witness :
    (∀ p ∈ ([exOutRes] : List Parts), exFs.resolve p = exOutRes) ∧
    mainRun true true false ([exA] ++ [exOutRes]) exFs exOutRes exBase ⟨false, none⟩ =
      mainRun true true false [exA] exFs exOutRes exBase ⟨false, none⟩ :=
  ⟨by decide,
    c8_rerun_identical exFs exFs ⟨false, none⟩ exOutRes exBase [exA] [exOutRes]
      (fun _ => rfl) (fun _ _ => rfl) (by decide)⟩
